import Mathlib

/-!
Verification development for the Eclipse Arrowhead core C library
(event loop, slab allocator, buffer cursor, TCP transport).

The definitions below are shallow embeddings of the C sources under
`libraries/ah_base`.  Machine integers are modelled as `Nat` with explicit
wrap-around modulo `2 ^ 64` where the C code relies on `size_t` arithmetic.
Both shipped platforms (Darwin/arm64-x86_64 and Linux/x86_64) are 64-bit
little-endian, so `sizeof(intptr_t) = 8`, `SIZE_MAX = 2 ^ 64 - 1`, and the
host byte order used by the `ahi_to/from_be/le` macros is little-endian.
-/

/-- Error kinds of `ah_err_t` used by the embedded code.  The numeric errno
values are platform specific; the embedding keeps them symbolic, with
`code n` for raw platform codes propagated from kernel completions. -/
inductive AhErr where
  | enone
  | einval
  | edom
  | erange
  | estate
  | enomem
  | enobufs
  | ecanceled
  | eeof
  | edomErr
  | code (n : Nat)
deriving DecidableEq, Repr

/-- The value of `SIZE_MAX` on both supported platforms. -/
def SIZE_MAX : Nat := 2 ^ 64 - 1

/-- Embedding of `ah_ckd_add` on `size_t` operands: `none` signals overflow
(the C macro returns `true`). -/
def ah_ckd_add (a b : Nat) : Option Nat :=
  if a + b ≤ SIZE_MAX then some (a + b) else none

/-- Embedding of `ah_ckd_mul` on `size_t` operands: `none` signals overflow. -/
def ah_ckd_mul (a b : Nat) : Option Nat :=
  if a * b ≤ SIZE_MAX then some (a * b) else none

/-- Embedding of `ahi_align_sz` (alloc/align.c): rejects a zero or
non-power-of-two alignment with `EDOM`, detects the checked addition
overflow with `ERANGE`, and otherwise clears the low bits of
`sz + alignment - 1` with the mask `~(alignment - 1)`, which at `size_t`
width equals `2 ^ 64 - alignment`. -/
def ahi_align_sz (alignment sz : Nat) : Except AhErr Nat :=
  if alignment = 0 ∨ alignment &&& (alignment - 1) ≠ 0 then
    .error .edom
  else
    match ah_ckd_add sz (alignment - 1) with
    | none => .error .erange
    | some y => .ok (y &&& (2 ^ 64 - alignment))

/-- State of `ah_slab_t` (alloc/slab.c).  A bank is represented by the list
of its slots' allocation flags (`true` = the slot's `_next_free` field holds
`AHI_IS_ALLOCATED`); the free list is left implicit in the `false` flags. -/
structure Slab where
  bank_list : List (List Bool)
  bank_sz : Nat
  slot_sz : Nat
  slots_per_bank : Nat
  ref_count : Nat
deriving DecidableEq, Repr

/-- Embedding of `ah_slab_init` for a given platform page size.  The struct
sizes `sizeof(struct ahi_slab_slot)` and `sizeof(ahi_slab_bank_t)` are both
8 on the 64-bit platforms (a single pointer followed by a flexible array
member), and `sizeof(intptr_t) = 8`. -/
def ah_slab_init (page_size slot_sz0 : Nat) : Except AhErr Slab :=
  match ah_ckd_add slot_sz0 8 with
  | none => .error .erange
  | some s1 =>
    match ahi_align_sz 8 s1 with
    | .error e => .error e
    | .ok slot_sz =>
      match ah_ckd_mul 4 slot_sz with
      | none => .error .erange
      | some b1 =>
        match ah_ckd_add b1 8 with
        | none => .error .erange
        | some b2 =>
          match ahi_align_sz page_size b2 with
          | .error e => .error e
          | .ok bank_sz =>
            .ok { bank_list := []
                  bank_sz := bank_sz
                  slot_sz := slot_sz
                  slots_per_bank := (bank_sz - 8) / slot_sz
                  ref_count := 1 }

/-- Embedding of `ahi_call_used`: the indices of the slots of one bank whose
`_next_free` field is `AHI_IS_ALLOCATED`, in traversal order. -/
def ahi_call_used (bank : List Bool) : List Nat :=
  (List.range bank.length).filter (fun i => bank.getD i false)

/-- Embedding of `ah_slab_term`.  The visitor argument is represented by its
null-ness only, which covers every visitor that does not re-enter the slab
through `ah_slab_free`.  The result carries the updated slab, the list of
banks handed to `ah_page_free`, and the `(bank, slot)` pairs the visitor was
invoked on. -/
def ah_slab_term (s : Slab) (slot_cb_or_null : Bool) :
    Slab × List (List Bool) × List (Nat × Nat) :=
  if s.ref_count = 0 then
    (s, [], [])
  else
    let rc := s.ref_count - 1
    if rc ≠ 0 ∧ slot_cb_or_null = false then
      ({ s with ref_count := rc }, [], [])
    else
      let visited :=
        if slot_cb_or_null then
          (s.bank_list.enum.map
            (fun p => (ahi_call_used p.2).map (fun si => (p.1, si)))).flatten
        else []
      ({ s with ref_count := rc }, s.bank_list, visited)

/-- Concrete slab with one bank holding one allocated slot and a reference
count of 2 (the initial reference plus one live allocation). -/
def slabLive : Slab :=
  { bank_list := [[true]]
    bank_sz := 4096
    slot_sz := 24
    slots_per_bank := 170
    ref_count := 2 }

/-- Lifecycle states of `ah_loop_t` (internal/ahi/loop.h). -/
inductive LoopState where
  | initial
  | running
  | stopping
  | stopped
  | terminating
  | terminated
deriving DecidableEq, Repr

/-- Embedding of `ahi_term` (loop.c): terminates the event slab with the
cancellation visitor, releases the platform loop, and sets the state to
`TERMINATED`.  The `Bool` records that the termination routine ran. -/
def ahi_term : LoopState × Bool := (.terminated, true)

/-- Embedding of `ah_loop_term` (loop.c), acting on the lifecycle state.
Returns the new state, the returned error, and whether the termination
routine `ahi_term` was executed inline. -/
def ah_loop_term (l : LoopState) : LoopState × AhErr × Bool :=
  match l with
  | .initial => (.terminated, .enone, false)
  | .running => (.terminating, .enone, false)
  | .stopping => (ahi_term.1, .enone, ahi_term.2)
  | .stopped => (ahi_term.1, .enone, ahi_term.2)
  | .terminating => (.terminating, .estate, false)
  | .terminated => (.terminated, .estate, false)

/-- Connection states of `ah_tcp_conn` (include/ah/internal/_tcp.h plus the
`READING` state used by tcp-kqueue.c and tcp-uring.c, whose ordinal must
exceed `CONNECTED` for the `_state < AH_I_TCP_CONN_STATE_CONNECTED` guards
to admit reading connections). -/
inductive ConnState where
  | closed
  | opened
  | connecting
  | connected
  | reading
deriving DecidableEq, Repr

/-- Numeric value of a connection state, as compared by the C guards. -/
def ConnState.toNat : ConnState → Nat
  | .closed => 0
  | .opened => 1
  | .connecting => 2
  | .connected => 3
  | .reading => 4

/-- The `AH_TCP_SHUTDOWN_RD` flag bit. -/
def AH_TCP_SHUTDOWN_RD : Nat := 1

/-- The `AH_TCP_SHUTDOWN_WR` flag bit. -/
def AH_TCP_SHUTDOWN_WR : Nat := 2

/-- The per-connection fields of `ah_tcp_conn` acted on by the embedded
operations.  `read_evt` records whether `_read_evt` is non-null, `read_page`
whether `_read_page` is non-null, and `has_on_read`/`has_on_write` whether
the corresponding observer callbacks are non-null. -/
structure Conn where
  state : ConnState
  shutdown_flags : Nat
  read_evt : Bool
  read_page : Bool
  has_on_read : Bool
  has_on_write : Bool
deriving DecidableEq, Repr

/-- Modelled from the spec: `ah_tcp_conn_shutdown` is declared in ah/tcp.h
but its definition (the generic tcp.c) is not among the sources; per the
spec it "sets the corresponding bit(s) in the shutdown-flags field and
signals the OS to half-close" without changing the connection state, and is
idempotent.  The OS half-close itself is outside the model and assumed to
succeed, so the function returns `AH_ENONE`. -/
def ah_tcp_conn_shutdown (conn : Conn) (flags : Nat) : Conn × AhErr :=
  ({ conn with shutdown_flags := conn.shutdown_flags ||| flags }, .enone)

/-- Embedding of `s_on_conn_connect` (tcp-uring.c).  `res` is `cqe->res`:
`0` on success and the negated errno on failure.  The second component of
the result records the single `on_connect` observer invocation: the
connection state at the moment of the call and the error passed to it. -/
def s_on_conn_connect (conn : Conn) (res : Int) : Conn × (ConnState × AhErr) :=
  if res = 0 then
    let conn1 := { conn with state := .connected }
    let flags :=
      (if conn1.has_on_read then 0 else AH_TCP_SHUTDOWN_RD) |||
      (if conn1.has_on_write then 0 else AH_TCP_SHUTDOWN_WR)
    let (conn2, err) :=
      if flags ≠ 0 then ah_tcp_conn_shutdown conn1 flags else (conn1, .enone)
    (conn2, (conn2.state, err))
  else
    let conn1 := { conn with state := .opened }
    (conn1, (conn1.state, .code (-res).toNat))

/-- Embedding of `ah_i_tcp_conn_read_stop` (tcp-uring.c).  `sqe_alloc_ok`
tells whether `ah_i_loop_alloc_sqe` succeeds when a cancellation is
submitted; its failure is ignored by the C code. -/
def ah_i_tcp_conn_read_stop (conn : Conn) (sqe_alloc_ok : Bool) : Conn × AhErr :=
  if conn.state ≠ .reading then
    (conn, if conn.state = .connected then .estate else .enone)
  else
    let conn1 := { conn with state := .connected }
    if conn1.read_evt ∧ sqe_alloc_ok then
      ({ conn1 with read_evt := false }, .enone)
    else
      (conn1, .enone)

/-- Observer invocations recorded by the read-completion embedding: the
arguments of each `on_read` call (whether a data page was passed, the byte
count, and the error). -/
inductive ReadEv where
  | onRead (hasPage : Bool) (nread : Nat) (err : AhErr)
deriving DecidableEq, Repr

/-- The `AH_PSIZE` page-size constant used by the uring read path. -/
def AH_PSIZE : Nat := 8192

/-- Embedding of `s_prep_conn_read` (tcp-uring.c).  `evt_alloc` is the
outcome of `ah_i_loop_evt_alloc_with_sqe` and `palloc_ok` whether
`ah_palloc` returns a page. -/
def s_prep_conn_read (conn : Conn) (evt_alloc : Option AhErr)
    (palloc_ok : Bool) : Conn × AhErr :=
  match evt_alloc with
  | some e => (conn, e)
  | none =>
    let conn1 := { conn with read_evt := true, read_page := palloc_ok }
    if palloc_ok = false then
      ({ conn1 with state := .connected }, .enomem)
    else
      (conn1, .enone)

/-- Embedding of `s_on_conn_read` (tcp-uring.c).  `res` is `cqe->res`.
`obs_state` is the connection state observed after the `on_read` data
callback returns (the observer may have called `read_stop` or `close`);
`evt_alloc` and `palloc_ok` feed the re-arming `s_prep_conn_read`.  The
returned list records every `on_read` observer invocation, in order. -/
def s_on_conn_read (conn : Conn) (res : Int) (obs_state : ConnState)
    (evt_alloc : Option AhErr) (palloc_ok : Bool) : Conn × List ReadEv :=
  let conn0 := { conn with read_evt := false }
  if conn0.state ≠ .reading then
    (conn0, [])
  else
    if res < 0 then
      (conn0, [.onRead false 0 (.code (-res).toNat)])
    else
      if res = 0 then
        let conn1 :=
          { conn0 with shutdown_flags := conn0.shutdown_flags ||| AH_TCP_SHUTDOWN_RD }
        (conn1, [.onRead false 0 .eeof])
      else
        if AH_PSIZE < res.toNat then
          (conn0, [.onRead false 0 .edomErr])
        else
          let dataEv := ReadEv.onRead conn0.read_page res.toNat .enone
          let conn1 := { conn0 with state := obs_state, read_page := false }
          if conn1.state ≠ .reading then
            (conn1, [dataEv])
          else
            let (conn2, err) := s_prep_conn_read conn1 evt_alloc palloc_ok
            if err ≠ .enone then
              (conn2, [dataEv, .onRead false 0 err])
            else
              (conn2, [dataEv])

/-- An `ah_tcp_omsg_t` as seen by the kqueue write path: the byte lengths of
its `iovec` segments.  The queue links (`_next`) are represented by list
order. -/
structure OMsg where
  iov : List Nat
deriving DecidableEq, Repr

/-- Connection fields acted on by the kqueue write path: state, shutdown
flags and the write queue headed by `_write_queue_head`. -/
structure ConnW where
  state : ConnState
  shutdown_flags : Nat
  queue : List OMsg
deriving DecidableEq, Repr

/-- Observer invocations and kernel submissions recorded by the kqueue
write-completion embedding, in order. -/
inductive WriteEv where
  | onWriteDone (err : AhErr)
  | submitWrite
deriving DecidableEq, Repr

/-- A kqueue completion for a write event: `kev->flags`/`kev->data`
condensed to the three cases distinguished by `s_on_conn_write`. -/
inductive KevW where
  | evError (errno : Nat)
  | evEof (fflags : Nat)
  | ready
deriving DecidableEq, Repr

/-- The partial-write adjustment loop of `s_on_conn_write`: consume `res`
transmitted bytes from the segment list; `none` means every segment was
fully written, `some iov` gives the adjusted remaining segments
(`_iov`/`_iovcnt` advanced and the first remaining segment shrunk). -/
def omsg_adjust : List Nat → Nat → Option (List Nat)
  | [], _ => none
  | len :: rest, res =>
    if len ≤ res then omsg_adjust rest (res - len)
    else some ((len - res) :: rest)

/-- The `report_err_and_prep_next` loop of `s_on_conn_write`: report `err`
through `on_write_done`, then, while the queue is non-empty, run
`s_prep_conn_write`; on its failure drop the head and report that failure,
repeating.  `alloc k` is the outcome of the k-th
`ah_i_loop_evt_alloc_with_kev` call (`none` = success). -/
def s_write_report_loop (alloc : Nat → Option AhErr) :
    AhErr → List OMsg → Nat → List WriteEv × List OMsg
  | err, [], _ => ([.onWriteDone err], [])
  | err, m :: qtail, k =>
    match alloc k with
    | none => ([.onWriteDone err, .submitWrite], m :: qtail)
    | some e =>
      let r := s_write_report_loop alloc e qtail (k + 1)
      (.onWriteDone err :: r.1, r.2)

/-- Embedding of `s_on_conn_write` (tcp-kqueue.c).  `wres` is the result of
`writev` (`.error errno` or `.ok n`); `alloc` feeds the `s_prep_conn_write`
attempts.  Returns the updated connection and the recorded events.  The C
code asserts `_write_queue_head != NULL`; an empty queue is mapped to the
no-event result. -/
def s_on_conn_write (conn : ConnW) (kev : KevW) (wres : Except Nat Nat)
    (alloc : Nat → Option AhErr) : ConnW × List WriteEv :=
  if conn.state.toNat < ConnState.connected.toNat then
    (conn, [])
  else
    match conn.queue with
    | [] => (conn, [])
    | omsg :: rest =>
      match kev with
      | .evError errno =>
        let r := s_write_report_loop alloc (.code errno) (omsg :: rest) 0
        ({ conn with queue := r.2 }, r.1)
      | .evEof fflags =>
        let err : AhErr := if fflags ≠ 0 then .code fflags else .eeof
        let conn1 :=
          { conn with shutdown_flags := conn.shutdown_flags ||| AH_TCP_SHUTDOWN_WR }
        let r := s_write_report_loop alloc err (omsg :: rest) 0
        ({ conn1 with queue := r.2 }, r.1)
      | .ready =>
        match wres with
        | .error errno =>
          let r := s_write_report_loop alloc (.code errno) (omsg :: rest) 0
          ({ conn with queue := r.2 }, r.1)
        | .ok n =>
          match omsg_adjust omsg.iov n with
          | none =>
            let r := s_write_report_loop alloc .enone rest 0
            ({ conn with queue := r.2 }, r.1)
          | some iov1 =>
            match alloc 0 with
            | none =>
              ({ conn with queue := ⟨iov1⟩ :: rest }, [.submitWrite])
            | some e =>
              let r := s_write_report_loop alloc e rest 1
              ({ conn with queue := r.2 }, r.1)

/-- Value of `(size_t)(a - b)` for two addresses below `2 ^ 64`: pointer
subtraction followed by conversion to the unsigned 64-bit `size_t`. -/
def szt_sub (a b : Nat) : Nat := (a + 2 ^ 64 - b) % 2 ^ 64

/-- Embedding of `ah_bufc` (include/ah/buf.h): byte memory plus the three
cursor addresses `r ≤ w ≤ e`.  Memory cells are bytes; every load masks
with `% 256`. -/
structure Bufc where
  mem : Nat → Nat
  r : Nat
  w : Nat
  e : Nat

/-- Store `nbytes` bytes of `v` at `addr` in little-endian host order, as a
`*(uintN_t*)p = v` store does on the supported platforms. -/
def storeLE (m : Nat → Nat) (addr nbytes v : Nat) : Nat → Nat :=
  fun a => if addr ≤ a ∧ a < addr + nbytes then v / 256 ^ (a - addr) % 256 else m a

/-- Load `nbytes` bytes at `addr` in little-endian host order, as a
`*(uintN_t*)p` load does on the supported platforms. -/
def loadLE (m : Nat → Nat) : Nat → Nat → Nat
  | _, 0 => 0
  | addr, n + 1 => m addr % 256 + 256 * loadLE m (addr + 1) n

/-- Byte reversal of an `nbytes`-wide value, the `__builtin_bswapN`
primitive behind `ahi_byteswap_uN`. -/
def ahi_byteswap (nbytes v : Nat) : Nat :=
  (List.range nbytes).foldl (fun acc i => acc * 256 + v / 256 ^ i % 256) 0

/-- Embedding of `ah_to_be_u16` (include/ah/bit.h, little-endian host). -/
def ah_to_be_u16 (u : Nat) : Nat := ahi_byteswap 2 (u % 2 ^ 16) % 2 ^ 16

/-- Embedding of `ah_to_be_u32`.  The C wrapper's return type is
`uint16_t`, so the swapped 32-bit value is truncated to 16 bits. -/
def ah_to_be_u32 (u : Nat) : Nat := ahi_byteswap 4 (u % 2 ^ 32) % 2 ^ 16

/-- Embedding of `ah_to_be_u64`; the `uint16_t` return type truncates. -/
def ah_to_be_u64 (u : Nat) : Nat := ahi_byteswap 8 (u % 2 ^ 64) % 2 ^ 16

/-- Embedding of `ah_to_le_u16` (identity macro on the little-endian host). -/
def ah_to_le_u16 (u : Nat) : Nat := u % 2 ^ 16

/-- Embedding of `ah_to_le_u32`; the `uint16_t` return type truncates. -/
def ah_to_le_u32 (u : Nat) : Nat := u % 2 ^ 32 % 2 ^ 16

/-- Embedding of `ah_to_le_u64`; the `uint16_t` return type truncates. -/
def ah_to_le_u64 (u : Nat) : Nat := u % 2 ^ 64 % 2 ^ 16

/-- Embedding of `ah_from_be_u16`. -/
def ah_from_be_u16 (u : Nat) : Nat := ahi_byteswap 2 (u % 2 ^ 16) % 2 ^ 16

/-- Embedding of `ah_from_be_u32`; the `uint16_t` return type truncates. -/
def ah_from_be_u32 (u : Nat) : Nat := ahi_byteswap 4 (u % 2 ^ 32) % 2 ^ 16

/-- Embedding of `ah_from_be_u64`; the `uint16_t` return type truncates. -/
def ah_from_be_u64 (u : Nat) : Nat := ahi_byteswap 8 (u % 2 ^ 64) % 2 ^ 16

/-- Embedding of `ah_from_le_u16`. -/
def ah_from_le_u16 (u : Nat) : Nat := u % 2 ^ 16

/-- Embedding of `ah_from_le_u32`; the `uint16_t` return type truncates. -/
def ah_from_le_u32 (u : Nat) : Nat := u % 2 ^ 32 % 2 ^ 16

/-- Embedding of `ah_from_le_u64`; the `uint16_t` return type truncates. -/
def ah_from_le_u64 (u : Nat) : Nat := u % 2 ^ 64 % 2 ^ 16

/-- Embedding of `ah_bufc_skip`. -/
def ah_bufc_skip (c : Bufc) (n : Nat) : Bufc × Bool :=
  if szt_sub c.w c.r < n then (c, false)
  else ({ c with r := c.r + n }, true)

/-- Embedding of `ah_bufc_peek`: copies `n` readable bytes out without
moving the cursor (the destination is external memory, so only the success
flag is part of the cursor model). -/
def ah_bufc_peek (c : Bufc) (n : Nat) : Bool :=
  decide (¬ szt_sub c.w c.r < n)

/-- Embedding of `ah_bufc_read`: like peek but advancing `r`. -/
def ah_bufc_read (c : Bufc) (n : Nat) : Bufc × Bool :=
  if szt_sub c.w c.r < n then (c, false)
  else ({ c with r := c.r + n }, true)

/-- Copy `n` bytes from address `src` in `msrc` to address `dst`. -/
def memmoveBytes (mdst : Nat → Nat) (dst : Nat) (msrc : Nat → Nat)
    (src n : Nat) : Nat → Nat :=
  fun a => if dst ≤ a ∧ a < dst + n then msrc (src + (a - dst)) % 256 else mdst a

/-- Embedding of `ah_bufc_copy`. -/
def ah_bufc_copy (src dst : Bufc) (n : Nat) : Bufc × Bufc × Bool :=
  if szt_sub src.w src.r < n then (src, dst, false)
  else if szt_sub dst.e dst.w < n then (src, dst, false)
  else
    ({ src with r := src.r + n },
     { dst with mem := memmoveBytes dst.mem dst.w src.mem src.r n, w := dst.w + n },
     true)

/-- Embedding of `ah_bufc_write` for a list of source bytes. -/
def ah_bufc_write (c : Bufc) (src : List Nat) : Bufc × Bool :=
  if szt_sub c.e c.w < src.length then (c, false)
  else
    ({ c with
        mem := fun a =>
          if c.w ≤ a ∧ a < c.w + src.length then src.getD (a - c.w) 0 % 256 else c.mem a
        w := c.w + src.length },
     true)

/-- Embedding of `ah_bufc_write_u16_be`.  Note that the C length check
compares `(size_t)(c->w - c->e)`, with the operands in that order. -/
def ah_bufc_write_u16_be (c : Bufc) (u : Nat) : Bufc × Bool :=
  if szt_sub c.w c.e < 2 then (c, false)
  else ({ c with mem := storeLE c.mem c.w 2 (ah_to_be_u16 u), w := c.w + 2 }, true)

/-- Embedding of `ah_bufc_write_u16_le`; same reversed length check. -/
def ah_bufc_write_u16_le (c : Bufc) (u : Nat) : Bufc × Bool :=
  if szt_sub c.w c.e < 2 then (c, false)
  else ({ c with mem := storeLE c.mem c.w 2 (ah_to_le_u16 u), w := c.w + 2 }, true)

/-- Embedding of `ah_bufc_write_u32_be`; same reversed length check. -/
def ah_bufc_write_u32_be (c : Bufc) (u : Nat) : Bufc × Bool :=
  if szt_sub c.w c.e < 4 then (c, false)
  else ({ c with mem := storeLE c.mem c.w 4 (ah_to_be_u32 u), w := c.w + 4 }, true)

/-- Embedding of `ah_bufc_write_u32_le`; same reversed length check. -/
def ah_bufc_write_u32_le (c : Bufc) (u : Nat) : Bufc × Bool :=
  if szt_sub c.w c.e < 4 then (c, false)
  else ({ c with mem := storeLE c.mem c.w 4 (ah_to_le_u32 u), w := c.w + 4 }, true)

/-- Embedding of `ah_bufc_write_u64_be`; same reversed length check. -/
def ah_bufc_write_u64_be (c : Bufc) (u : Nat) : Bufc × Bool :=
  if szt_sub c.w c.e < 8 then (c, false)
  else ({ c with mem := storeLE c.mem c.w 8 (ah_to_be_u64 u), w := c.w + 8 }, true)

/-- Embedding of `ah_bufc_write_u64_le`; same reversed length check. -/
def ah_bufc_write_u64_le (c : Bufc) (u : Nat) : Bufc × Bool :=
  if szt_sub c.w c.e < 8 then (c, false)
  else ({ c with mem := storeLE c.mem c.w 8 (ah_to_le_u64 u), w := c.w + 8 }, true)

/-- Embedding of `ah_bufc_read_u16_be` (returns 0 without moving the cursor
when fewer than two readable bytes remain). -/
def ah_bufc_read_u16_be (c : Bufc) : Bufc × Nat :=
  if szt_sub c.w c.r < 2 then (c, 0)
  else ({ c with r := c.r + 2 }, ah_from_be_u16 (loadLE c.mem c.r 2))

/-- Embedding of `ah_bufc_read_u16_le`. -/
def ah_bufc_read_u16_le (c : Bufc) : Bufc × Nat :=
  if szt_sub c.w c.r < 2 then (c, 0)
  else ({ c with r := c.r + 2 }, ah_from_le_u16 (loadLE c.mem c.r 2))

/-- Embedding of `ah_bufc_read_u32_be`. -/
def ah_bufc_read_u32_be (c : Bufc) : Bufc × Nat :=
  if szt_sub c.w c.r < 4 then (c, 0)
  else ({ c with r := c.r + 4 }, ah_from_be_u32 (loadLE c.mem c.r 4))

/-- Embedding of `ah_bufc_read_u32_le`. -/
def ah_bufc_read_u32_le (c : Bufc) : Bufc × Nat :=
  if szt_sub c.w c.r < 4 then (c, 0)
  else ({ c with r := c.r + 4 }, ah_from_le_u32 (loadLE c.mem c.r 4))

/-- Embedding of `ah_bufc_read_u64_be`. -/
def ah_bufc_read_u64_be (c : Bufc) : Bufc × Nat :=
  if szt_sub c.w c.r < 8 then (c, 0)
  else ({ c with r := c.r + 8 }, ah_from_be_u64 (loadLE c.mem c.r 8))

/-- Embedding of `ah_bufc_read_u64_le`.  The C source converts the loaded
64-bit value through `ah_from_le_u32`. -/
def ah_bufc_read_u64_le (c : Bufc) : Bufc × Nat :=
  if szt_sub c.w c.r < 8 then (c, 0)
  else ({ c with r := c.r + 8 }, ah_from_le_u32 (loadLE c.mem c.r 8))

/-- A fresh writable cursor over `n` zeroed bytes at address 0, as built by
`ah_bufc_from_writable(base, n)`. -/
def bufcWritable (n : Nat) : Bufc := { mem := fun _ => 0, r := 0, w := 0, e := n }

/-- Big-endian 32-bit round trip of the claim: write `v` into a fresh
4-byte cursor, then read the written bytes back with the big-endian read. -/
def roundtrip_u32_be (v : Nat) : Nat :=
  let c1 := (ah_bufc_write_u32_be (bufcWritable 4) v).1
  (ah_bufc_read_u32_be { mem := c1.mem, r := 0, w := 4, e := 4 }).2

/-- Big-endian 16-bit round trip. -/
def roundtrip_u16_be (v : Nat) : Nat :=
  let c1 := (ah_bufc_write_u16_be (bufcWritable 2) v).1
  (ah_bufc_read_u16_be { mem := c1.mem, r := 0, w := 2, e := 2 }).2

/-- Little-endian 64-bit round trip. -/
def roundtrip_u64_le (v : Nat) : Nat :=
  let c1 := (ah_bufc_write_u64_le (bufcWritable 8) v).1
  (ah_bufc_read_u64_le { mem := c1.mem, r := 0, w := 8, e := 8 }).2

/-- Little-endian 16-bit round trip. -/
def roundtrip_u16_le (v : Nat) : Nat :=
  let c1 := (ah_bufc_write_u16_le (bufcWritable 2) v).1
  (ah_bufc_read_u16_le { mem := c1.mem, r := 0, w := 2, e := 2 }).2

/-- Bytes of a string, for building the error-formatting model inputs. -/
def strBytes (s : String) : List Nat := s.toList.map Char.toNat

/-- The formatted header `snprintf` produces in the default branch of
`ahp_err_get_s` (platform/Darwin/src/err.c). -/
def ahp_err_fmt (err : Int) : List Nat := strBytes ("ERR[" ++ toString err ++ "]: ")

/-- Overwrite memory at `addr` with the byte list `bs`. -/
def storeBytesAt (m : Nat → Nat) (addr : Nat) (bs : List Nat) : Nat → Nat :=
  fun a => if addr ≤ a ∧ a < addr + bs.length then bs.getD (a - addr) 0 % 256 else m a

/-- Read a C string: bytes from `addr` up to the first NUL, bounded by
`fuel`. -/
def cstr (m : Nat → Nat) : Nat → Nat → List Nat
  | _, 0 => []
  | addr, fuel + 1 =>
    if m addr % 256 = 0 then [] else m addr % 256 :: cstr m (addr + 1) fuel

/-- Embedding of the `default:` branch of `ahp_err_get_s`
(platform/Darwin/src/err.c) for a non-enumerated code `err` whose
platform description is `desc`.  The 64-byte thread-local buffer receives
`"ERR[%d]: "` from `snprintf` (whose non-negative return is the header
length), and then `strerror_r(err, buf, sizeof(buf) - res)` writes `desc`
starting at `buf` itself.  The returned value is the C string the caller
sees in `buf`. -/
def ahp_err_get_s_default (err : Int) (desc : List Nat) : List Nat :=
  let hdr := ahp_err_fmt err
  let res := hdr.length
  let buf1 := storeBytesAt (fun _ => 0) 0 (hdr.take 63 ++ [0])
  if 64 ≤ res then cstr buf1 0 64
  else
    let buf2 := storeBytesAt buf1 0 (desc.take (64 - res - 1) ++ [0])
    cstr buf2 0 64

/-- Bank size as claim C7 words it: the smallest multiple of the page size
large enough for 32 slots of the aligned slot size plus the bank header. -/
def bank_sz_target32 (page_size slot_sz_aligned : Nat) : Nat :=
  page_size * ((32 * slot_sz_aligned + 8 + page_size - 1) / page_size)

/-- Helper: for addresses `b ≤ a < 2 ^ 64` the `size_t` difference is the
ordinary one. -/
theorem szt_sub_of_le (a b : Nat) (hba : b ≤ a) (ha : a < 2 ^ 64) :
    szt_sub a b = a - b := by
  unfold szt_sub
  have h1 : a + 2 ^ 64 - b = 2 ^ 64 + (a - b) := by omega
  rw [h1, Nat.add_mod_left, Nat.mod_eq_of_lt (by omega)]

/-- Helper: `ah_bufc_read` preserves the cursor invariant `r ≤ w ≤ e`. -/
theorem ah_bufc_read_preserves_invariant (c : Bufc) (n : Nat)
    (h1 : c.r ≤ c.w) (h2 : c.w ≤ c.e) (he : c.e < 2 ^ 64) :
    ((ah_bufc_read c n).1.r ≤ (ah_bufc_read c n).1.w ∧
     (ah_bufc_read c n).1.w ≤ (ah_bufc_read c n).1.e) := by
  unfold ah_bufc_read
  rw [szt_sub_of_le c.w c.r h1 (by omega)]
  split
  · exact ⟨h1, h2⟩
  · constructor
    · simp only []
      omega
    · simpa using h2

/-- Helper: `ah_bufc_skip` preserves the cursor invariant `r ≤ w ≤ e`. -/
theorem ah_bufc_skip_preserves_invariant (c : Bufc) (n : Nat)
    (h1 : c.r ≤ c.w) (h2 : c.w ≤ c.e) (he : c.e < 2 ^ 64) :
    ((ah_bufc_skip c n).1.r ≤ (ah_bufc_skip c n).1.w ∧
     (ah_bufc_skip c n).1.w ≤ (ah_bufc_skip c n).1.e) := by
  unfold ah_bufc_skip
  rw [szt_sub_of_le c.w c.r h1 (by omega)]
  split
  · exact ⟨h1, h2⟩
  · constructor
    · simp only []
      omega
    · simpa using h2

/-- C3.  The claim says every cursor operation preserves `r ≤ w ≤ e` and
that an integer write on a cursor whose writable range is smaller than the
integer width is rejected and leaves the cursor unchanged.  The code's
length check in `ah_bufc_write_u16_be` compares `(size_t)(c->w - c->e)`,
which for any cursor with `w < e` is a huge wrapped value, so a cursor with
exactly one writable byte is NOT rejected: the write reports success and
advances `w` to 2 while `e = 1`, breaking `w ≤ e`.  The repository's own
suite-bufc-write.c expects this call to return `false`, so this is a bug in
the code rather than in the claim. -/
theorem ah_bufc_write_u16_be_breaks_invariant_on_short_cursor :
    (ah_bufc_write_u16_be (bufcWritable 1) 0x1234).2 = true ∧
    (ah_bufc_write_u16_be (bufcWritable 1) 0x1234).1.w = 2 ∧
    (ah_bufc_write_u16_be (bufcWritable 1) 0x1234).1.e = 1 ∧
    ¬ ((ah_bufc_write_u16_be (bufcWritable 1) 0x1234).1.w ≤
       (ah_bufc_write_u16_be (bufcWritable 1) 0x1234).1.e) := by
  refine ⟨by decide, by decide, by decide, by decide⟩

/-- C9.  The claim says the big- and little-endian integer write/read pairs
round-trip every value of width 16, 32 and 64.  The 16-bit pairs do, but
`ah_to_be_u32`/`ah_from_be_u32` and the 64-bit conversions in
include/ah/bit.h are declared with return type `uint16_t` and truncate, and
`ah_bufc_read_u64_le` converts through `ah_from_le_u32`; the 32-bit
big-endian round trip of `0x12345678` therefore yields 0 and the 64-bit
little-endian round trip of `2 ^ 32 + 5` yields 5.  The write test suite
(suite-bufc-write.c) expects the full 32-bit value to be stored, so the
code, not the claim, is wrong. -/
theorem bufc_endian_roundtrip_fails :
    roundtrip_u32_be 0x12345678 = 0 ∧ (0 : Nat) ≠ 0x12345678 ∧
    roundtrip_u64_le (2 ^ 32 + 5) = 5 ∧ (5 : Nat) ≠ 2 ^ 32 + 5 := by
  refine ⟨by decide, by decide, ?_, by decide⟩
  decide

/-- Supporting check: the 16-bit round trips, whose conversions are not
truncated, do recover the written value. -/
theorem bufc_u16_roundtrips_ok :
    roundtrip_u16_be 0xABCD = 0xABCD ∧ roundtrip_u16_le 0xBEEF = 0xBEEF := by
  refine ⟨by decide, by decide⟩

/-- C8.  The claim says a non-enumerated code formats as `"ERR[%d]"`
followed by the platform's description.  The code formats the header into
`buf` and then calls `strerror_r(err, buf, sizeof(buf) - res)`, writing the
description at offset 0 and overwriting the header, so the returned string
is the bare description.  This contradicts the documentation of
`ah_err_get_s` in include/ah/err.h, so the code is wrong.  Evaluated at the
non-enumerated code 9999 with platform description "Unknown error: 9999". -/
theorem ahp_err_get_s_default_drops_header :
    ahp_err_get_s_default 9999 (strBytes "Unknown error: 9999") =
      strBytes "Unknown error: 9999" ∧
    strBytes "Unknown error: 9999" ≠
      ahp_err_fmt 9999 ++ strBytes "Unknown error: 9999" := by
  refine ⟨by decide, by decide⟩

/-- C4 counterexample.  The claim says `ah_loop_term` reports the `State`
error and changes nothing from `Stopping`; the code instead runs the
termination routine inline from `Stopping` and reports success with the
state moved to `Terminated`. -/
theorem ah_loop_term_stopping_counterexample :
    ah_loop_term .stopping = (.terminated, .enone, true) ∧
    AhErr.enone ≠ AhErr.estate ∧
    LoopState.terminated ≠ LoopState.stopping := by
  refine ⟨by decide, by decide, by decide⟩

/-- C4 amended.  `ah_loop_term` by lifecycle state: from `Initial` it marks
the loop `Terminated` directly without running the termination routine;
from `Stopped` or `Stopping` it runs termination inline and the state
becomes `Terminated`; from `Running` it only sets `Terminating`; from
`Terminating` or `Terminated` it reports the `State` error and changes
nothing.  The third component records whether the termination routine
`ahi_term` ran. -/
theorem ah_loop_term_amended :
    ah_loop_term .initial = (.terminated, .enone, false) ∧
    ah_loop_term .running = (.terminating, .enone, false) ∧
    ah_loop_term .stopping = (.terminated, .enone, true) ∧
    ah_loop_term .stopped = (.terminated, .enone, true) ∧
    ah_loop_term .terminating = (.terminating, .estate, false) ∧
    ah_loop_term .terminated = (.terminated, .estate, false) := by
  refine ⟨rfl, rfl, rfl, rfl, rfl, rfl⟩

/-- Concrete connection in state `Connected` with no event or page
attached. -/
def connConnected : Conn :=
  { state := .connected
    shutdown_flags := 0
    read_evt := false
    read_page := false
    has_on_read := true
    has_on_write := true }

/-- C5 counterexample.  The claim says `read_stop` on a connection already
in state `Connected` is a successful no-op returning Ok; the code returns
the `State` error in exactly that case. -/
theorem read_stop_connected_counterexample :
    (ah_i_tcp_conn_read_stop connConnected true).2 = .estate ∧
    AhErr.estate ≠ AhErr.enone := by
  refine ⟨by decide, by decide⟩

/-- C5 amended.  `read_stop` from `Reading` succeeds and moves the state to
`Connected`; from `Connected` it returns the `State` error and changes
nothing; from any other state it returns Ok without changing the state. -/
theorem ah_i_tcp_conn_read_stop_amended (conn : Conn) (ok : Bool) :
    (ah_i_tcp_conn_read_stop conn ok).2 =
      (if conn.state = .connected then .estate else .enone) ∧
    (ah_i_tcp_conn_read_stop conn ok).1.state =
      (if conn.state = .reading then .connected else conn.state) := by
  cases hc : conn.state
  case reading =>
    simp only [ah_i_tcp_conn_read_stop, hc]
    rw [if_neg (by simp)]
    refine ⟨?_, ?_⟩ <;> split <;> simp
  all_goals simp [ah_i_tcp_conn_read_stop, hc]

/-- C10.  Once a connection has left the `Reading` state, a read completion
delivered afterwards never invokes the `on_read` observer: the handler
checks the state first and returns without recording any observer call. -/
theorem s_on_conn_read_silent_when_not_reading (conn : Conn) (res : Int)
    (obs_state : ConnState) (evt_alloc : Option AhErr) (palloc_ok : Bool)
    (h : conn.state ≠ .reading) :
    (s_on_conn_read conn res obs_state evt_alloc palloc_ok).2 = [] := by
  unfold s_on_conn_read
  simp [h]

/-- Witness for C10 at a connection in state `Connected` receiving a
100-byte completion. -/
theorem s_on_conn_read_silent_when_not_reading_witness :
    connConnected.state ≠ .reading ∧
    (s_on_conn_read connConnected 100 .reading none true).2 = [] :=
  ⟨by decide,
   s_on_conn_read_silent_when_not_reading connConnected 100 .reading none true
     (by decide)⟩

/-- C1 counterexample.  The claim says `ah_slab_term` returns the banks to
the page allocator if and only if the decremented reference count is zero,
for either choice of visitor.  On a slab with reference count 2 (one live
allocation) and a non-null visitor, the decremented count is 1, yet the
code frees the bank anyway, so the equivalence fails. -/
theorem ah_slab_term_visitor_counterexample :
    0 < slabLive.ref_count ∧
    (ah_slab_term slabLive true).1.ref_count = 1 ∧
    (ah_slab_term slabLive true).2.1 = slabLive.bank_list ∧
    slabLive.bank_list ≠ [] ∧
    ¬ (((ah_slab_term slabLive true).2.1 ≠ []) ↔
        ((ah_slab_term slabLive true).1.ref_count = 0)) := by
  refine ⟨by decide, by decide, by decide, by decide, by decide⟩

/-- C1 amended.  For a slab with a positive reference count,
`ah_slab_term` decrements the count by exactly one, and it returns the
banks to the page allocator if and only if the decremented count is zero OR
a non-null visitor was supplied; in particular a visitor-less terminate
that leaves the count non-zero frees no bank. -/
theorem ah_slab_term_amended (s : Slab) (cb : Bool) (h : 0 < s.ref_count) :
    (ah_slab_term s cb).1.ref_count = s.ref_count - 1 ∧
    (ah_slab_term s cb).2.1 =
      (if s.ref_count - 1 = 0 ∨ cb = true then s.bank_list else []) := by
  have hz : ¬ s.ref_count = 0 := by omega
  unfold ah_slab_term
  rw [if_neg hz]
  by_cases h1 : s.ref_count - 1 ≠ 0 ∧ cb = false
  · rw [if_pos h1]
    have : ¬ (s.ref_count - 1 = 0 ∨ cb = true) := by
      rcases h1 with ⟨ha, hb⟩
      subst hb
      simp [ha]
    simp [this]
  · rw [if_neg h1]
    have : s.ref_count - 1 = 0 ∨ cb = true := by
      by_cases hb : cb = true
      · exact Or.inr hb
      · left
        rcases Classical.em (s.ref_count - 1 = 0) with h2 | h2
        · exact h2
        · exact absurd ⟨h2, by simpa using hb⟩ h1
    simp [this]

/-- Witness for the amended C1 theorem at the concrete slab `slabLive`
with a non-null visitor. -/
theorem ah_slab_term_amended_witness :
    0 < slabLive.ref_count ∧
    ((ah_slab_term slabLive true).1.ref_count = slabLive.ref_count - 1 ∧
     (ah_slab_term slabLive true).2.1 =
       (if slabLive.ref_count - 1 = 0 ∨ true = true then slabLive.bank_list
        else [])) :=
  ⟨by decide, ah_slab_term_amended slabLive true (by decide)⟩

/-- Concrete connection in state `Connecting`. -/
def connConnecting : Conn :=
  { state := .connecting
    shutdown_flags := 0
    read_evt := false
    read_page := false
    has_on_read := true
    has_on_write := true }

/-- C6.  For a connection in state `Connecting`: when the connect
completion carries an error (`res ≠ 0`), the state is returned to `Open`
before `on_connect` is invoked (the observer sees state `Open` and the
completion's error); on a successful completion the state becomes
`Connected`.  The second component of the handler's result records the
state at the moment of the observer call and the error passed to it. -/
theorem s_on_conn_connect_state_on_completion (conn : Conn) (res : Int)
    (h : conn.state = .connecting) :
    (s_on_conn_connect conn res).1.state =
      (if res = 0 then .connected else .opened) ∧
    (s_on_conn_connect conn res).2 =
      ((if res = 0 then ConnState.connected else ConnState.opened),
       (if res = 0 then AhErr.enone else AhErr.code (-res).toNat)) := by
  unfold s_on_conn_connect ah_tcp_conn_shutdown
  by_cases hr : res = 0
  · subst hr
    rcases conn with ⟨st, fl, re, rp, hor, how⟩
    cases hor <;> cases how <;>
      refine ⟨?_, ?_⟩ <;>
      simp [AH_TCP_SHUTDOWN_RD, AH_TCP_SHUTDOWN_WR]
  · simp [hr]

/-- Witness for C6 at a connecting connection completing with
`cqe->res = -61` (`ECONNREFUSED` on Darwin/Linux). -/
theorem s_on_conn_connect_state_on_completion_witness :
    connConnecting.state = .connecting ∧
    ((s_on_conn_connect connConnecting (-61)).1.state =
       (if (-61 : Int) = 0 then .connected else .opened) ∧
     (s_on_conn_connect connConnecting (-61)).2 =
       ((if (-61 : Int) = 0 then ConnState.connected else ConnState.opened),
        (if (-61 : Int) = 0 then AhErr.enone
         else AhErr.code (-(-61 : Int)).toNat))) :=
  ⟨by decide, s_on_conn_connect_state_on_completion connConnecting (-61) (by decide)⟩

/-- Concrete connected connection with two queued output messages. -/
def connWTwo : ConnW :=
  { state := .connected, shutdown_flags := 0, queue := [⟨[3]⟩, ⟨[5]⟩] }

/-- C2 counterexample.  The claim says that when the in-flight write
completes with an error the head output descriptor is removed from the
queue.  On a connection with two queued messages and an erroneous
completion, the code notifies the observer and schedules another write but
leaves the head in place: the resulting queue equals the original one, not
its tail. -/
theorem s_on_conn_write_error_counterexample :
    (s_on_conn_write connWTwo (.evError 54) (.ok 0) (fun _ => none)).1.queue
      = connWTwo.queue ∧
    (s_on_conn_write connWTwo (.evError 54) (.ok 0) (fun _ => none)).2
      = [.onWriteDone (.code 54), .submitWrite] ∧
    connWTwo.queue ≠ connWTwo.queue.tail := by
  refine ⟨rfl, rfl, by decide⟩

/-- C2 amended.  When a write completion carries an error (and the
connection is at least `Connected` with a non-empty write queue, as the
code asserts), the observer is notified with that error but the head is
NOT dequeued: the queue is left unchanged and a new write event for the
same head is scheduled, so a persistent error is re-reported for the same
descriptor on each subsequent completion. -/
theorem s_on_conn_write_error_amended (conn : ConnW) (errno : Nat)
    (wres : Except Nat Nat) (alloc : Nat → Option AhErr)
    (hs : ConnState.connected.toNat ≤ conn.state.toNat)
    (hq : conn.queue ≠ []) (ha : alloc 0 = none) :
    s_on_conn_write conn (.evError errno) wres alloc
      = (conn, [.onWriteDone (.code errno), .submitWrite]) := by
  have hlt : ¬ (conn.state.toNat < ConnState.connected.toNat) := by omega
  unfold s_on_conn_write
  rw [if_neg hlt]
  rcases hqe : conn.queue with _ | ⟨m, qt⟩
  · exact absurd hqe hq
  · simp only [s_write_report_loop, ha]
    rw [← hqe]

/-- Witness for the amended C2 theorem at the concrete two-element queue. -/
theorem s_on_conn_write_error_amended_witness :
    (ConnState.connected.toNat ≤ connWTwo.state.toNat ∧
     connWTwo.queue ≠ [] ∧
     (fun (_ : Nat) => (none : Option AhErr)) 0 = none) ∧
    s_on_conn_write connWTwo (.evError 54) (.ok 0) (fun _ => none)
      = (connWTwo, [.onWriteDone (.code 54), .submitWrite]) :=
  ⟨⟨by decide, by decide, rfl⟩,
   s_on_conn_write_error_amended connWTwo 54 (.ok 0) (fun _ => none)
     (by decide) (by decide) rfl⟩

/-- Helper: AND with the mask `2 ^ 64 - 2 ^ j` clears the `j` low bits of a
64-bit value, i.e. rounds it down to a multiple of `2 ^ j`. -/
theorem land_high_mask (j y : Nat) (hj : j ≤ 64) (hy : y < 2 ^ 64) :
    y &&& (2 ^ 64 - 2 ^ j) = y - y % 2 ^ j := by
  have hmask : 2 ^ 64 - 2 ^ j = (2 ^ (64 - j) - 1) <<< j := by
    rw [Nat.shiftLeft_eq, Nat.sub_mul, one_mul, ← pow_add]
    congr 2
    omega
  have hrhs : y - y % 2 ^ j = (y >>> j) <<< j := by
    rw [Nat.shiftRight_eq_div_pow, Nat.shiftLeft_eq, Nat.mul_comm]
    have := Nat.div_add_mod y (2 ^ j)
    omega
  rw [hmask, hrhs]
  apply Nat.eq_of_testBit_eq
  intro i
  rw [Nat.testBit_land, Nat.testBit_shiftLeft, Nat.testBit_shiftLeft,
    Nat.testBit_shiftRight, Nat.testBit_two_pow_sub_one]
  by_cases hij : j ≤ i
  · by_cases hi : i < 64
    · have h1 : j + (i - j) = i := by omega
      simp [hij, h1, show i - j < 64 - j by omega, ge_iff_le]
    · have h2 : y.testBit i = false :=
        Nat.testBit_lt_two_pow
          (lt_of_lt_of_le hy (Nat.pow_le_pow_right (by omega) (by omega)))
      have h3 : y.testBit (j + (i - j)) = false := by
        rwa [show j + (i - j) = i by omega]
      simp [hij, h2, h3, show ¬ (i - j < 64 - j) by omega, ge_iff_le]
  · simp [show ¬ (i ≥ j) by omega]

/-- Helper: a power of two passes the power-of-two check of
`ahi_align_sz`. -/
theorem two_pow_land_self_sub_one (j : Nat) : 2 ^ j &&& (2 ^ j - 1) = 0 := by
  apply Nat.eq_of_testBit_eq
  intro i
  rw [Nat.testBit_land, Nat.testBit_two_pow, Nat.testBit_two_pow_sub_one]
  by_cases h : j = i <;> simp [h]

/-- Helper: a successful `ahi_align_sz` with power-of-two alignment yields
the smallest aligned size at or above the requested one. -/
theorem ahi_align_sz_spec (j sz v : Nat) (hj : j ≤ 64)
    (h : ahi_align_sz (2 ^ j) sz = .ok v) :
    sz ≤ v ∧ v < sz + 2 ^ j ∧ 2 ^ j ∣ v ∧ v ≤ SIZE_MAX := by
  unfold ahi_align_sz at h
  have hne : (2 : Nat) ^ j ≠ 0 :=
    Nat.pos_iff_ne_zero.mp (Nat.pos_pow_of_pos j (by norm_num))
  rw [if_neg (by push_neg; exact ⟨hne, two_pow_land_self_sub_one j⟩)] at h
  unfold ah_ckd_add at h
  by_cases hb : sz + (2 ^ j - 1) ≤ SIZE_MAX
  · rw [if_pos hb] at h
    simp only [Except.ok.injEq] at h
    have hp : 0 < 2 ^ j := Nat.pos_pow_of_pos j (by norm_num)
    have hy : sz + (2 ^ j - 1) < 2 ^ 64 := by
      have : SIZE_MAX = 2 ^ 64 - 1 := rfl
      omega
    have hmask := land_high_mask j (sz + (2 ^ j - 1)) hj hy
    rw [hmask] at h
    have hmod := Nat.mod_lt (sz + (2 ^ j - 1)) hp
    have hdvd : 2 ^ j ∣ (sz + (2 ^ j - 1) - (sz + (2 ^ j - 1)) % 2 ^ j) := by
      have := Nat.div_add_mod (sz + (2 ^ j - 1)) (2 ^ j)
      exact ⟨(sz + (2 ^ j - 1)) / 2 ^ j, by omega⟩
    subst h
    refine ⟨by omega, by omega, hdvd, by omega⟩
  · rw [if_neg hb] at h
    simp at h

/-- The slab `ah_slab_init 4096 1000` evaluates to. -/
def slabInit1000 : Slab :=
  { bank_list := []
    bank_sz := 4096
    slot_sz := 1008
    slots_per_bank := 4
    ref_count := 1 }

/-- C7 counterexample.  The claim says the bank size is the smallest
multiple of the page size holding roughly 32 slots per bank.  With page
size 4096 and requested slot size 1000 (aligned slot size 1008), the code
computes a bank size of 4096 holding exactly 4 slots, while the smallest
page-size multiple holding 32 such slots plus the bank header is 32768. -/
theorem ah_slab_init_target32_counterexample :
    ah_slab_init 4096 1000 = .ok slabInit1000 ∧
    slabInit1000.slots_per_bank = 4 ∧
    bank_sz_target32 4096 1008 = 32768 ∧
    slabInit1000.bank_sz ≠ bank_sz_target32 4096 1008 := by
  refine ⟨rfl, rfl, rfl, by decide⟩

/-- C7 amended.  For any power-of-two page size, a successful
`ah_slab_init` rounds the slot size plus the 8-byte per-slot header up to
pointer alignment (the smallest multiple of 8 at or above `slot_sz + 8`),
targets 4 slots per bank — not roughly 32 — by taking the smallest
page-size multiple at or above `4 * slot_sz' + 8` (bank header included)
as the bank size, and derives the slots-per-bank count from that bank
size. -/
theorem ah_slab_init_amended (j page slot_sz0 : Nat) (s : Slab)
    (hp : page = 2 ^ j) (hj : j ≤ 64)
    (hs : ah_slab_init page slot_sz0 = .ok s) :
    (slot_sz0 + 8 ≤ s.slot_sz ∧ s.slot_sz < slot_sz0 + 8 + 8 ∧ 8 ∣ s.slot_sz) ∧
    (4 * s.slot_sz + 8 ≤ s.bank_sz ∧ s.bank_sz < 4 * s.slot_sz + 8 + page ∧
      page ∣ s.bank_sz) ∧
    s.slots_per_bank = (s.bank_sz - 8) / s.slot_sz := by
  unfold ah_slab_init at hs
  rcases hadd : ah_ckd_add slot_sz0 8 with _ | s1
  · simp only [hadd] at hs
    exact absurd hs (by simp)
  simp only [hadd] at hs
  rcases halign : ahi_align_sz 8 s1 with e | slot
  · simp only [halign] at hs
    exact absurd hs (by simp)
  simp only [halign] at hs
  rcases hmul : ah_ckd_mul 4 slot with _ | b1
  · simp only [hmul] at hs
    exact absurd hs (by simp)
  simp only [hmul] at hs
  rcases hadd2 : ah_ckd_add b1 8 with _ | b2
  · simp only [hadd2] at hs
    exact absurd hs (by simp)
  simp only [hadd2] at hs
  rcases halign2 : ahi_align_sz page b2 with e2 | bank
  · simp only [halign2] at hs
    exact absurd hs (by simp)
  simp only [halign2] at hs
  simp only [Except.ok.injEq] at hs
  have hs1 : s1 = slot_sz0 + 8 := by
    unfold ah_ckd_add at hadd
    by_cases hb : slot_sz0 + 8 ≤ SIZE_MAX
    · rw [if_pos hb] at hadd
      exact (Option.some.injEq _ _ ▸ hadd).symm
    · rw [if_neg hb] at hadd
      exact absurd hadd (by simp)
  have h8 : (8 : Nat) = 2 ^ 3 := by norm_num
  have hslot := ahi_align_sz_spec 3 s1 slot (by omega) (by rw [← h8]; exact halign)
  have hb1 : b1 = 4 * slot := by
    unfold ah_ckd_mul at hmul
    by_cases hb : 4 * slot ≤ SIZE_MAX
    · rw [if_pos hb] at hmul
      exact (Option.some.injEq _ _ ▸ hmul).symm
    · rw [if_neg hb] at hmul
      exact absurd hmul (by simp)
  have hb2 : b2 = b1 + 8 := by
    unfold ah_ckd_add at hadd2
    by_cases hb : b1 + 8 ≤ SIZE_MAX
    · rw [if_pos hb] at hadd2
      exact (Option.some.injEq _ _ ▸ hadd2).symm
    · rw [if_neg hb] at hadd2
      exact absurd hadd2 (by simp)
  have hbank := ahi_align_sz_spec j b2 bank hj (by rw [← hp]; exact halign2)
  have hfields : s.slot_sz = slot ∧ s.bank_sz = bank ∧
      s.slots_per_bank = (bank - 8) / slot := by
    rcases hs with rfl
    exact ⟨rfl, rfl, rfl⟩
  rcases hfields with ⟨hf1, hf2, hf3⟩
  rw [hf1, hf2, hf3]
  have hd8 : 8 ∣ slot := by
    rw [h8]
    exact hslot.2.2.1
  have hdp : page ∣ bank := by
    rw [hp]
    exact hbank.2.2.1
  exact ⟨⟨by omega, by omega, hd8⟩, ⟨by omega, by omega, hdp⟩, rfl⟩

/-- Witness for the amended C7 theorem at page size 4096 and slot size
1000. -/
theorem ah_slab_init_amended_witness :
    ((4096 : Nat) = 2 ^ 12 ∧ (12 : Nat) ≤ 64 ∧
     ah_slab_init 4096 1000 = .ok slabInit1000) ∧
    ((1000 + 8 ≤ slabInit1000.slot_sz ∧ slabInit1000.slot_sz < 1000 + 8 + 8 ∧
      8 ∣ slabInit1000.slot_sz) ∧
     (4 * slabInit1000.slot_sz + 8 ≤ slabInit1000.bank_sz ∧
      slabInit1000.bank_sz < 4 * slabInit1000.slot_sz + 8 + 4096 ∧
      4096 ∣ slabInit1000.bank_sz) ∧
     slabInit1000.slots_per_bank =
       (slabInit1000.bank_sz - 8) / slabInit1000.slot_sz) :=
  ⟨⟨by norm_num, by norm_num, rfl⟩,
   ah_slab_init_amended 12 4096 1000 slabInit1000 (by norm_num) (by norm_num) rfl⟩
